import Mathlib

/-!
Verification of the EDA dashboard repository (app.py, app1.py, app2.py).

The three dashboards parse an uploaded CSV into a pandas dataframe and compute
five analyses: overview, correlation heatmap, boxplot with IQR outliers,
missing-value counts, and duplicate rows.  This file gives a shallow embedding
of the dataframe operations the dashboards invoke and proves the specified
properties about them.

Modelling conventions:
- a parsed cell is a numeric value (a rational, standing for the float the
  loader produced), a text value, or null (NaN);
- a dataframe is an ordered list of named columns of equal length;
- pandas operations that raise uncaught exceptions inside a callback are
  modelled with an Except error value (keyError for a missing column label,
  typeError for arithmetic on a non-numeric column, indexError for indexing
  an empty column list);
- comparisons against NaN are false, matching pandas, so null cells never
  count as outliers and NaN quantile bounds select nothing.
-/

namespace EDA

/-- Scalar value of a parsed CSV cell: a number (modelled as a rational) or a
piece of text. -/
inductive Val where
  | num (q : ℚ)
  | str (s : String)
deriving DecidableEq, Repr

/-- A dataframe cell: a value, or null (NaN / missing). -/
abbrev Cell := Option Val

/-- A tabular dataset: an ordered sequence of named columns, each an ordered
sequence of cells.  This models the pandas DataFrame built by pd.read_csv. -/
structure Dataset where
  cols : List (String × List Cell)
deriving DecidableEq, Repr

/-- Column names in original order. -/
def Dataset.colNames (ds : Dataset) : List String := ds.cols.map Prod.fst

/-- Number of rows, read from the first column (all columns agree on a
wellformed dataset). -/
def Dataset.rowCount (ds : Dataset) : ℕ :=
  match ds.cols with
  | [] => 0
  | c :: _ => c.2.length

/-- Number of columns. -/
def Dataset.columnCount (ds : Dataset) : ℕ := ds.cols.length

/-- The dataframe invariant: unique column names and columns of equal
length. -/
def Dataset.Wellformed (ds : Dataset) : Prop :=
  (ds.cols.map Prod.fst).Nodup ∧ ∀ c ∈ ds.cols, c.2.length = ds.rowCount

instance (ds : Dataset) : Decidable ds.Wellformed := by
  unfold Dataset.Wellformed
  infer_instance

/-- Column lookup by label, as in df[name]: the first column carrying the
label. -/
def Dataset.col? (ds : Dataset) (name : String) : Option (List Cell) :=
  (ds.cols.find? fun c => decide (c.1 = name)).map Prod.snd

/-- The dataset read row-wise: row r is the list of the r-th cells of every
column, in column order. -/
def Dataset.rows (ds : Dataset) : List (List Cell) :=
  (List.range ds.rowCount).map fun r => ds.cols.map fun c => c.2.getD r none

/-- The numeric content of a cell, none for null cells and text cells. -/
def cellNum : Cell → Option ℚ
  | some (Val.num q) => some q
  | _ => none

/-- A cell acceptable in a numeric dtype column: null or a number. -/
def cellNumericOrNull : Cell → Bool
  | none => true
  | some (Val.num _) => true
  | some (Val.str _) => false

/-- The pandas dtype test behind df.select_dtypes(include=[number]) at value
level: a parsed column is numeric exactly when every non-null cell holds a
number. -/
def colIsNumeric (cs : List Cell) : Bool := cs.all cellNumericOrNull

/-- Non-null numeric values of a column, in row order (pandas skipna view). -/
def numsOf (cs : List Cell) : List ℚ := cs.filterMap cellNum

/-- Labels of the numeric columns, in original column order: the model of
df.select_dtypes(include=[number]).columns. -/
def numericCols (ds : Dataset) : List String :=
  (ds.cols.filter fun c => colIsNumeric c.2).map Prod.fst

/-- Labels of the non-numeric columns, in original column order: the model of
df.select_dtypes(exclude=[number]).columns. -/
def nonNumericCols (ds : Dataset) : List String :=
  (ds.cols.filter fun c => !colIsNumeric c.2).map Prod.fst

/-- The column classifier of the spec: the pair of numeric and non-numeric
label lists. -/
def classify (ds : Dataset) : List String × List String :=
  (numericCols ds, nonNumericCols ds)

/-- Accumulator pass behind df.duplicated(): walk the rows keeping the set of
rows already seen and flag a row exactly when it occurred before. -/
def dupFlagsAux (seen : List (List Cell)) : List (List Cell) → List Bool
  | [] => []
  | r :: rs => decide (r ∈ seen) :: dupFlagsAux (r :: seen) rs

/-- The model of df.duplicated() with the default keep=first: one Boolean per
row. -/
def duplicatedFlags (ds : Dataset) : List Bool := dupFlagsAux [] ds.rows

/-- The model of df.duplicated().sum(). -/
def duplicateCount (ds : Dataset) : ℕ := (duplicatedFlags ds).count true

/-- The model of df[df.duplicated()]: the flagged rows in original order. -/
def duplicateRows (ds : Dataset) : List (List Cell) :=
  ((ds.rows.zip (duplicatedFlags ds)).filter Prod.snd).map Prod.fst

/-- The model of df.isnull().sum(): one (label, null count) pair per column in
original column order. -/
def missingReport (ds : Dataset) : List (String × ℕ) :=
  ds.cols.map fun c => (c.1, c.2.countP fun x => x.isNone)

/-- Total number of non-null cells of the dataset. -/
def totalNonNull (ds : Dataset) : ℕ :=
  (ds.cols.map fun c => c.2.countP fun x => x.isSome).sum

/-- Ascending sort of the column values, as pandas quantile performs
internally. -/
def sortedQ (l : List ℚ) : List ℚ := l.insertionSort (· ≤ ·)

/-- Linear interpolation step of pandas Series.quantile on an already sorted
nonempty list s: the virtual index is h = p * (length - 1); the value is
s[floor h] plus the fractional part times (s[floor h + 1] - s[floor h]). -/
def interpAt (s : List ℚ) (p : ℚ) : ℚ :=
  let h : ℚ := p * ((s.length - 1 : ℕ) : ℚ)
  let i : ℕ := (⌊h⌋).toNat
  let lo := s.getD i 0
  let hi := s.getD (i + 1) lo
  lo + (h - (i : ℚ)) * (hi - lo)

/-- The model of Series.quantile(p) with the default linear interpolation:
none (NaN) on an empty value list, otherwise sort and interpolate. -/
def quantileLinear (l : List ℚ) (p : ℚ) : Option ℚ :=
  if l = [] then none else some (interpAt (sortedQ l) p)

/-- Percentile as the spec words it, on a sorted list: the p-th percentile
sits at virtual index h = p * (n - 1) and interpolates linearly between the
two bracketing entries, at index floor h and index ceil h. -/
def percentileAt (s : List ℚ) (p : ℚ) : ℚ :=
  let h : ℚ := p * ((s.length - 1 : ℕ) : ℚ)
  let lo := s.getD ((⌊h⌋).toNat) 0
  let hi := s.getD ((⌈h⌉).toNat) 0
  lo + (h - ((⌊h⌋).toNat : ℚ)) * (hi - lo)

/-- Percentile of a sorted list per the spec, none when there are no
values. -/
def specPercentile (s : List ℚ) (p : ℚ) : Option ℚ :=
  if s = [] then none else some (percentileAt s p)

/-- The pandas comparison series df[column] < bound: false on null cells and
false when the bound itself is NaN (none). -/
def cellLt (c : Cell) (b : Option ℚ) : Bool :=
  match cellNum c, b with
  | some v, some q => decide (v < q)
  | _, _ => false

/-- The pandas comparison series df[column] > bound: false on null cells and
false when the bound itself is NaN (none). -/
def cellGt (c : Cell) (b : Option ℚ) : Bool :=
  match cellNum c, b with
  | some v, some q => decide (q < v)
  | _, _ => false

/-- Outlier test as the spec words it: the cell holds a value strictly below
the lower bound or strictly above the upper bound; null cells are excluded. -/
def specOutlier (lower upper : ℚ) (c : Cell) : Bool :=
  match c with
  | some (Val.num v) => decide (v < lower) || decide (upper < v)
  | _ => false

/-- Uncaught pandas exceptions escaping a callback. -/
inductive PdError where
  | keyError
  | typeError
deriving DecidableEq, Repr

/-- The data update_boxplot of app2.py computes for the boxplot: the quartile
and fence values, and the rows pandas keeps in the outlier frame.  A field is
none where pandas would produce NaN (no values in the column). -/
structure OutlierReport where
  q1 : Option ℚ
  q3 : Option ℚ
  iqr : Option ℚ
  lower : Option ℚ
  upper : Option ℚ
  outlierRows : List (List Cell)
deriving DecidableEq, Repr

/-- The model of update_boxplot of app2.py.  With no upload or no selected
column it returns the empty figure (ok none).  Otherwise it evaluates
df[column] (KeyError on a missing label), Series.quantile at 0.25 and 0.75
(TypeError on a non-numeric column), the IQR fences with factor 1.5, and
filters the dataframe rows with the two strict comparisons. -/
def update_boxplot (column : Option String) (contents : Option Dataset) :
    Except PdError (Option OutlierReport) :=
  match contents, column with
  | none, _ => .ok none
  | some _, none => .ok none
  | some df, some col =>
    match df.col? col with
    | none => .error .keyError
    | some cells =>
      if colIsNumeric cells then
        let vals := numsOf cells
        let q1 := quantileLinear vals (1/4)
        let q3 := quantileLinear vals (3/4)
        let iqr : Option ℚ :=
          match q1, q3 with
          | some a, some b => some (b - a)
          | _, _ => none
        let lower : Option ℚ :=
          match q1, iqr with
          | some a, some d => some (a - 3/2 * d)
          | _, _ => none
        let upper : Option ℚ :=
          match q3, iqr with
          | some b, some d => some (b + 3/2 * d)
          | _, _ => none
        .ok (some
          { q1 := q1, q3 := q3, iqr := iqr, lower := lower, upper := upper,
            outlierRows := ((df.rows.zip cells).filter fun rc =>
              cellLt rc.2 lower || cellGt rc.2 upper).map Prod.fst })
      else .error .typeError

/-- Pairwise-complete observations of two columns: the rows where both cells
hold a number, as pandas DataFrame.corr pairs them. -/
def commonPairs : List Cell → List Cell → List (ℚ × ℚ)
  | a :: as, b :: bs =>
    match cellNum a, cellNum b with
    | some x, some y => (x, y) :: commonPairs as bs
    | _, _ => commonPairs as bs
  | _, _ => []

/-- Mean of the first components. -/
def meanFst (l : List (ℚ × ℚ)) : ℚ := (l.map Prod.fst).sum / l.length

/-- Mean of the second components. -/
def meanSnd (l : List (ℚ × ℚ)) : ℚ := (l.map Prod.snd).sum / l.length

/-- Sum of products of deviations, the numerator kernel of the Pearson
coefficient. -/
def covQ (l : List (ℚ × ℚ)) : ℚ :=
  (l.map fun p => (p.1 - meanFst l) * (p.2 - meanSnd l)).sum

/-- Sum of squared deviations of the first components. -/
def varFst (l : List (ℚ × ℚ)) : ℚ :=
  (l.map fun p => (p.1 - meanFst l) * (p.1 - meanFst l)).sum

/-- Sum of squared deviations of the second components. -/
def varSnd (l : List (ℚ × ℚ)) : ℚ :=
  (l.map fun p => (p.2 - meanSnd l) * (p.2 - meanSnd l)).sum

/-- Pearson correlation coefficient of a list of paired observations, the
entry formula of DataFrame.corr.  The normalization constants of covariance
and standard deviation cancel, leaving deviation sums. -/
noncomputable def pearsonR (l : List (ℚ × ℚ)) : ℝ :=
  ((covQ l : ℚ) : ℝ) / Real.sqrt (((varFst l : ℚ) : ℝ) * ((varSnd l : ℚ) : ℝ))

/-- Pairwise-complete observations of two named columns of a dataset. -/
def pairedVals (ds : Dataset) (i j : String) : List (ℚ × ℚ) :=
  match ds.col? i, ds.col? j with
  | some a, some b => commonPairs a b
  | _, _ => []

/-- Entry (i, j) of df[num_cols].corr(). -/
noncomputable def corrEntry (ds : Dataset) (i j : String) : ℝ :=
  pearsonR (pairedVals ds i j)

/-- The model of df[num_cols].corr(): the square matrix of pairwise Pearson
coefficients indexed by the numeric column labels. -/
noncomputable def corrMatrix (ds : Dataset) : List (List ℝ) :=
  (numericCols ds).map fun i => (numericCols ds).map fun j => corrEntry ds i j

/-- The correlation branch of render_tab in app.py: with no numeric columns
it returns the warning (none), the NoNumericColumns signal; otherwise the
matrix. -/
noncomputable def correlationTab (ds : Dataset) : Option (List (List ℝ)) :=
  if numericCols ds = [] then none else some (corrMatrix ds)

/-- The correlation branch of render_tab in app1.py and app2.py: no guard, it
always computes df[num_cols].corr() and hands the matrix to the heatmap. -/
noncomputable def correlationTabNoGuard (ds : Dataset) : List (List ℝ) :=
  corrMatrix ds

/-- Deviation sum of squares of one named column over its non-null rows, the
quantity whose vanishing makes the pandas diagonal entry NaN. -/
def colVar (ds : Dataset) (i : String) : ℚ := varFst (pairedVals ds i i)

/-- The model of df.to_dict(records) in process_file of app.py: one key-value
record per row, keys in column order. -/
def toRecords (ds : Dataset) : List (List (String × Cell)) :=
  (List.range ds.rowCount).map fun r => ds.cols.map fun c => (c.1, c.2.getD r none)

/-- Key collection step of pd.DataFrame(records): append the keys of one
record that were not seen before. -/
def addKeys (acc : List String) (rec : List (String × Cell)) : List String :=
  acc ++ (rec.map Prod.fst).filter fun k => decide (k ∉ acc)

/-- Column labels pd.DataFrame(records) infers: union of the record keys in
order of first appearance; empty for an empty record list. -/
def recordKeys (recs : List (List (String × Cell))) : List String :=
  recs.foldl addKeys []

/-- Cell a record contributes to a column: the value under the key, null when
the record lacks the key. -/
def lookupCell (rec : List (String × Cell)) (k : String) : Cell :=
  ((rec.find? fun p => decide (p.1 = k)).map Prod.snd).getD none

/-- The model of pd.DataFrame(records) as render_tab of app.py rebuilds the
dataframe from the stored records on every interaction. -/
def fromRecords (recs : List (List (String × Cell))) : Dataset :=
  ⟨(recordKeys recs).map fun k => (k, recs.map fun rec => lookupCell rec k)⟩

/-- Uncaught indexing exception of the presentation code. -/
inductive UiError where
  | indexError
deriving DecidableEq, Repr

/-- The boxplots branch of render_tab in app.py: it rebuilds the dataframe
from the stored records and builds the column dropdown with options num_cols
and default value num_cols[0]; the subscript raises IndexError when there is
no numeric column. -/
def boxplots_tab (data : List (List (String × Cell))) :
    Except UiError (List String × String) :=
  match numericCols (fromRecords data) with
  | [] => .error .indexError
  | c :: cs => .ok (c :: cs, c)

/-- Concrete dataset of the spec scenario in section 8: columns A and B with
rows (1,10), (2,20), (1,10), (100,5). -/
def demoDs : Dataset :=
  ⟨[("A", [some (Val.num 1), some (Val.num 2), some (Val.num 1), some (Val.num 100)]),
    ("B", [some (Val.num 10), some (Val.num 20), some (Val.num 10), some (Val.num 5)])]⟩

/-- Concrete dataset with a single text column and no numeric column. -/
def textDs : Dataset :=
  ⟨[("name", [some (Val.str "u"), some (Val.str "v")])]⟩

/-- Concrete dataset mixing a numeric column with a null and a text column
with a null. -/
def mixedDs : Dataset :=
  ⟨[("X", [some (Val.num 1), none, some (Val.num 3), some (Val.num 4)]),
    ("tag", [some (Val.str "a"), some (Val.str "b"), none, some (Val.str "a")])]⟩

/-- Concrete dataset of a CSV holding only a header line: one column, zero
rows. -/
def headerOnlyDs : Dataset := ⟨[("A", [])]⟩

/-- Projection reading the Q3 value out of an update_boxplot result. -/
def reportQ3 : Except PdError (Option OutlierReport) → Option ℚ
  | .ok (some r) => r.q3
  | _ => none

theorem countP_isNone_add_isSome (l : List Cell) :
    l.countP (fun x => x.isNone) + l.countP (fun x => x.isSome) = l.length := by
  induction l with
  | nil => simp
  | cons a t ih => cases a <;> simp [List.countP_cons] <;> omega

theorem sum_map_add_nat {α : Type} (l : List α) (f g : α → ℕ) :
    (l.map f).sum + (l.map g).sum = (l.map fun a => f a + g a).sum := by
  induction l with
  | nil => simp
  | cons a t ih => simp only [List.map_cons, List.sum_cons]; omega

theorem sum_map_const_of {α : Type} (l : List α) (f : α → ℕ) (n : ℕ)
    (h : ∀ c ∈ l, f c = n) : (l.map f).sum = n * l.length := by
  induction l with
  | nil => simp
  | cons a t ih =>
    simp only [List.map_cons, List.sum_cons, List.length_cons]
    rw [h a (by simp), ih fun c hc => h c (by simp [hc])]
    ring

/-- C8: the missing-value report lists one (column, null count) pair per
column in original column order, and the counts sum to
row count times column count minus the number of non-null cells. -/
theorem c8_missing_value_report (ds : Dataset) (hw : ds.Wellformed) :
    (missingReport ds).map Prod.fst = ds.colNames ∧
    ((missingReport ds).map Prod.snd).sum =
      ds.rowCount * ds.columnCount - totalNonNull ds := by
  constructor
  · simp [missingReport, Dataset.colNames, List.map_map, Function.comp]
  · have hlen : (ds.cols.map fun c => c.2.length).sum =
        ds.rowCount * ds.columnCount :=
      sum_map_const_of ds.cols (fun c => c.2.length) ds.rowCount hw.2
    have hsplit : (ds.cols.map fun c => c.2.countP fun x => x.isNone).sum +
        (ds.cols.map fun c => c.2.countP fun x => x.isSome).sum =
        (ds.cols.map fun c => c.2.length).sum := by
      rw [sum_map_add_nat]
      congr 1
      exact List.map_congr_left fun c _ => countP_isNone_add_isSome c.2
    have hmiss : ((missingReport ds).map Prod.snd).sum =
        (ds.cols.map fun c => c.2.countP fun x => x.isNone).sum := by
      simp only [missingReport, List.map_map]
      rfl
    rw [hmiss, ← hlen, ← hsplit]
    have : totalNonNull ds = (ds.cols.map fun c => c.2.countP fun x => x.isSome).sum := rfl
    omega

/-- Witness for C8 on the concrete mixed dataset, which has one null in each
of its two columns. -/
theorem c8_missing_value_report_witness :
    (missingReport mixedDs).map Prod.fst = mixedDs.colNames ∧
    ((missingReport mixedDs).map Prod.snd).sum =
      mixedDs.rowCount * mixedDs.columnCount - totalNonNull mixedDs :=
  c8_missing_value_report mixedDs (by decide)

theorem nodup_keys_eq {β : Type} (l : List (String × β))
    (hn : (l.map Prod.fst).Nodup) {p q : String × β}
    (hp : p ∈ l) (hq : q ∈ l) (h1 : p.1 = q.1) : p = q := by
  induction l with
  | nil => cases hp
  | cons a t ih =>
    simp only [List.map_cons, List.nodup_cons] at hn
    rcases List.mem_cons.mp hp with rfl | hp2
    · rcases List.mem_cons.mp hq with rfl | hq2
      · rfl
      · exact absurd (h1 ▸ List.mem_map_of_mem Prod.fst hq2) hn.1
    · rcases List.mem_cons.mp hq with rfl | hq2
      · exact absurd (h1 ▸ List.mem_map_of_mem Prod.fst hp2) hn.1
      · exact ih hn.2 hp2 hq2

theorem mem_numericCols_iff (ds : Dataset) (name : String) :
    name ∈ numericCols ds ↔ ∃ cs, (name, cs) ∈ ds.cols ∧ colIsNumeric cs = true := by
  simp only [numericCols, List.mem_map, List.mem_filter]
  constructor
  · rintro ⟨c, ⟨hc, hnum⟩, rfl⟩
    exact ⟨c.2, by simpa using hc, hnum⟩
  · rintro ⟨cs, hc, hnum⟩
    exact ⟨(name, cs), ⟨hc, hnum⟩, rfl⟩

theorem mem_nonNumericCols_iff (ds : Dataset) (name : String) :
    name ∈ nonNumericCols ds ↔ ∃ cs, (name, cs) ∈ ds.cols ∧ colIsNumeric cs = false := by
  simp only [nonNumericCols, List.mem_map, List.mem_filter, Bool.not_eq_true']
  constructor
  · rintro ⟨c, ⟨hc, hnum⟩, rfl⟩
    exact ⟨c.2, by simpa using hc, hnum⟩
  · rintro ⟨cs, hc, hnum⟩
    exact ⟨(name, cs), ⟨hc, hnum⟩, rfl⟩

theorem colIsNumeric_iff (cs : List Cell) :
    colIsNumeric cs = true ↔ ∀ c ∈ cs, c ≠ none → ∃ q, c = some (Val.num q) := by
  simp only [colIsNumeric, List.all_eq_true]
  refine forall_congr' fun c => ?_
  cases c with
  | none => simp [cellNumericOrNull]
  | some v => cases v <;> simp [cellNumericOrNull]

theorem length_filter_not_split {α : Type} (l : List α) (p : α → Bool) :
    (l.filter p).length + (l.filter fun a => !p a).length = l.length := by
  induction l with
  | nil => simp
  | cons a t ih => cases h : p a <;> simp [List.filter_cons, h] <;> omega

/-- C6: the classifier partitions the column labels, places a column in the
numeric set exactly when every non-null cell parses as a number, preserves
the original column order in both outputs, and its two output sizes sum to
the column count; an empty dataset yields two empty sets. -/
theorem c6_classifier (ds : Dataset) (hn : (ds.cols.map Prod.fst).Nodup) :
    (∀ name ∈ ds.colNames,
        (name ∈ (classify ds).1 ∧ name ∉ (classify ds).2) ∨
        (name ∉ (classify ds).1 ∧ name ∈ (classify ds).2)) ∧
    (∀ name cs, (name, cs) ∈ ds.cols →
        ((name ∈ (classify ds).1) ↔ ∀ c ∈ cs, c ≠ none → ∃ q, c = some (Val.num q))) ∧
    List.Sublist (classify ds).1 ds.colNames ∧
    List.Sublist (classify ds).2 ds.colNames ∧
    (classify ds).1.length + (classify ds).2.length = ds.colNames.length ∧
    (ds.cols = [] → (classify ds).1 = [] ∧ (classify ds).2 = []) := by
  have hdisj : ∀ name, name ∈ numericCols ds → name ∈ nonNumericCols ds → False := by
    intro name h1 h2
    obtain ⟨cs1, hc1, hv1⟩ := (mem_numericCols_iff ds name).mp h1
    obtain ⟨cs2, hc2, hv2⟩ := (mem_nonNumericCols_iff ds name).mp h2
    have := nodup_keys_eq ds.cols hn hc1 hc2 rfl
    simp only [Prod.mk.injEq] at this
    rw [this.2] at hv1
    rw [hv1] at hv2
    cases hv2
  refine ⟨?_, ?_, ?_, ?_, ?_, ?_⟩
  · intro name hname
    obtain ⟨c, hc, rfl⟩ := List.mem_map.mp hname
    cases hnum : colIsNumeric c.2 with
    | true =>
      left
      have h1 : c.1 ∈ numericCols ds :=
        (mem_numericCols_iff ds c.1).mpr ⟨c.2, by simpa using hc, hnum⟩
      exact ⟨h1, fun h2 => hdisj c.1 h1 h2⟩
    | false =>
      right
      have h2 : c.1 ∈ nonNumericCols ds :=
        (mem_nonNumericCols_iff ds c.1).mpr ⟨c.2, by simpa using hc, hnum⟩
      exact ⟨fun h1 => hdisj c.1 h1 h2, h2⟩
  · intro name cs hc
    rw [show (classify ds).1 = numericCols ds from rfl, mem_numericCols_iff]
    constructor
    · rintro ⟨cs2, hc2, hnum⟩
      have := nodup_keys_eq ds.cols hn hc hc2 rfl
      simp only [Prod.mk.injEq] at this
      rw [this.2]
      exact (colIsNumeric_iff cs2).mp hnum
    · intro hvals
      exact ⟨cs, hc, (colIsNumeric_iff cs).mpr hvals⟩
  · exact (List.filter_sublist ds.cols).map Prod.fst
  · exact (List.filter_sublist ds.cols).map Prod.fst
  · have := length_filter_not_split ds.cols fun c => colIsNumeric c.2
    simpa [classify, numericCols, nonNumericCols, Dataset.colNames] using this
  · intro h
    simp [classify, numericCols, nonNumericCols, h]

/-- Witness for C6 on the concrete mixed dataset: the numeric column X lands
in the numeric set and not in the non-numeric set. -/
theorem c6_classifier_witness :
    ("X" ∈ (classify mixedDs).1 ∧ "X" ∉ (classify mixedDs).2) ∨
    ("X" ∉ (classify mixedDs).1 ∧ "X" ∈ (classify mixedDs).2) :=
  (c6_classifier mixedDs (by decide)).1 "X" (by decide)

theorem dupFlagsAux_length (rs : List (List Cell)) :
    ∀ seen : List (List Cell), (dupFlagsAux seen rs).length = rs.length := by
  induction rs with
  | nil => intro seen; rfl
  | cons r t ih => intro seen; simp [dupFlagsAux, ih]

theorem dupFlagsAux_getD (rs : List (List Cell)) :
    ∀ (seen : List (List Cell)) (i : ℕ), i < rs.length →
      ((dupFlagsAux seen rs).getD i false = true ↔
        rs.getD i [] ∈ seen ++ rs.take i) := by
  induction rs with
  | nil => intro seen i hi; cases hi
  | cons r t ih =>
    intro seen i hi
    cases i with
    | zero => simp [dupFlagsAux]
    | succ n =>
      have hn : n < t.length := Nat.lt_of_succ_lt_succ hi
      have := ih (r :: seen) n hn
      simp only [dupFlagsAux, List.getD_cons_succ, List.take_succ_cons]
      rw [this]
      simp only [List.cons_append, List.mem_cons, List.mem_append]
      tauto

theorem filter_zip_eq_filterMap_range {α : Type} (l : List α) (d : α) :
    ∀ f : List Bool, f.length = l.length →
      ((l.zip f).filter Prod.snd).map Prod.fst =
      (List.range l.length).filterMap
        (fun i => if f.getD i false = true then some (l.getD i d) else none) := by
  induction l with
  | nil => intro f hl; simp
  | cons a t ih =>
    intro f hl
    cases f with
    | nil => simp at hl
    | cons b fb =>
      have hlen : fb.length = t.length := by simpa using hl
      have hrec := ih fb hlen
      cases b with
      | false =>
        simp [List.range_succ_eq_map, List.filterMap_cons, List.filterMap_map,
          Function.comp_def, List.filter_cons, hrec]
      | true =>
        simp [List.range_succ_eq_map, List.filterMap_cons, List.filterMap_map,
          Function.comp_def, List.filter_cons, hrec]

theorem count_true_eq_filter_zip {α : Type} (l : List α) :
    ∀ f : List Bool, f.length = l.length →
      f.count true = (((l.zip f).filter Prod.snd).map Prod.fst).length := by
  induction l with
  | nil =>
    intro f hl
    have : f = [] := List.length_eq_zero.mp hl
    simp [this]
  | cons a t ih =>
    intro f hl
    cases f with
    | nil => simp at hl
    | cons b fb =>
      have hlen : fb.length = t.length := by simpa using hl
      cases b <;> simp [List.count_cons, List.filter_cons, ih fb hlen]

/-- C3: a row is flagged as duplicate exactly when an identical row (null
positions included, cells compared whole-row) occurs earlier; a first
occurrence is never flagged; the duplicate row list is exactly the flagged
rows in original row order; and the duplicate count equals the number of
listed rows. -/
theorem c3_duplicate_report (ds : Dataset) :
    (∀ i, i < ds.rows.length →
        ((duplicatedFlags ds).getD i false = true ↔
          ds.rows.getD i [] ∈ ds.rows.take i)) ∧
    (∀ i, i < ds.rows.length →
        ds.rows.getD i [] ∉ ds.rows.take i →
        (duplicatedFlags ds).getD i false = false) ∧
    (duplicateRows ds =
      (List.range ds.rows.length).filterMap fun i =>
        if (duplicatedFlags ds).getD i false = true
        then some (ds.rows.getD i []) else none) ∧
    duplicateCount ds = (duplicateRows ds).length := by
  have hlen : (duplicatedFlags ds).length = ds.rows.length :=
    dupFlagsAux_length ds.rows []
  have hchar : ∀ i, i < ds.rows.length →
      ((duplicatedFlags ds).getD i false = true ↔
        ds.rows.getD i [] ∈ ds.rows.take i) := by
    intro i hi
    have := dupFlagsAux_getD ds.rows [] i hi
    simpa [duplicatedFlags] using this
  refine ⟨hchar, ?_, ?_, ?_⟩
  · intro i hi hmem
    cases hfl : (duplicatedFlags ds).getD i false with
    | false => rfl
    | true => exact absurd ((hchar i hi).mp hfl) hmem
  · exact filter_zip_eq_filterMap_range ds.rows [] (duplicatedFlags ds) hlen
  · exact count_true_eq_filter_zip ds.rows (duplicatedFlags ds) hlen

/-- Witness for C3 on the concrete scenario dataset: its third row is flagged
because it already occurred among the first two rows. -/
theorem c3_duplicate_report_witness :
    (duplicatedFlags demoDs).getD 2 false = true ↔
      demoDs.rows.getD 2 [] ∈ demoDs.rows.take 2 :=
  (c3_duplicate_report demoDs).1 2 (by decide)

theorem interp_q1_demo : interpAt [1, 1, 2, 100] (1/4) = 1 := by
  unfold interpAt
  norm_num

theorem interp_q3_demo : interpAt [1, 1, 2, 100] (3/4) = 53/2 := by
  unfold interpAt
  norm_num [show Int.toNat 2 = 2 from rfl]

theorem quantile_demo_q1 : quantileLinear [1, 2, 1, 100] (1/4) = some 1 := by
  rw [quantileLinear, if_neg (by decide : ¬([1, 2, 1, 100] : List ℚ) = [])]
  rw [show sortedQ [1, 2, 1, 100] = [1, 1, 2, 100] from by decide]
  rw [interp_q1_demo]

theorem quantile_demo_q3 : quantileLinear [1, 2, 1, 100] (3/4) = some (53/2) := by
  rw [quantileLinear, if_neg (by decide : ¬([1, 2, 1, 100] : List ℚ) = [])]
  rw [show sortedQ [1, 2, 1, 100] = [1, 1, 2, 100] from by decide]
  rw [interp_q3_demo]

/-- Evaluation of the app2 boxplot callback on the scenario dataset: Q1 is 1,
Q3 is 26.5, the fences are -37.25 and 64.75, and only the row with value 100
is kept as an outlier. -/
theorem update_boxplot_demoDs :
    update_boxplot (some "A") (some demoDs) = .ok (some
      { q1 := some 1, q3 := some (53/2), iqr := some (51/2),
        lower := some (-(149/4)), upper := some (259/4),
        outlierRows := [[some (Val.num 100), some (Val.num 5)]] }) := by
  have hcol : demoDs.col? "A" =
      some [some (Val.num 1), some (Val.num 2), some (Val.num 1), some (Val.num 100)] := by
    decide
  have hnum : colIsNumeric
      [some (Val.num 1), some (Val.num 2), some (Val.num 1), some (Val.num 100)] = true := rfl
  have hnums : numsOf
      [some (Val.num 1), some (Val.num 2), some (Val.num 1), some (Val.num 100)] =
      [1, 2, 1, 100] := by decide
  simp only [update_boxplot, hcol, hnum, if_true, hnums, quantile_demo_q1, quantile_demo_q3]
  rw [show (53/2 - 1 : ℚ) = 51/2 from by norm_num]
  rw [show (1 - 3/2 * (51/2) : ℚ) = -(149/4) from by norm_num]
  rw [show (53/2 + 3/2 * (51/2) : ℚ) = 259/4 from by norm_num]
  have b1 : (cellLt (some (Val.num 1)) (some (-(149/4))) ||
      cellGt (some (Val.num 1)) (some (259/4))) = false := by
    simp only [cellLt, cellGt, cellNum]
    rw [decide_eq_false (by norm_num : ¬((1:ℚ) < -(149/4))),
      decide_eq_false (by norm_num : ¬((259/4 : ℚ) < 1))]
    rfl
  have b2 : (cellLt (some (Val.num 2)) (some (-(149/4))) ||
      cellGt (some (Val.num 2)) (some (259/4))) = false := by
    simp only [cellLt, cellGt, cellNum]
    rw [decide_eq_false (by norm_num : ¬((2:ℚ) < -(149/4))),
      decide_eq_false (by norm_num : ¬((259/4 : ℚ) < 2))]
    rfl
  have b100 : (cellLt (some (Val.num 100)) (some (-(149/4))) ||
      cellGt (some (Val.num 100)) (some (259/4))) = true := by
    simp only [cellLt, cellGt, cellNum]
    rw [decide_eq_false (by norm_num : ¬((100:ℚ) < -(149/4))),
      decide_eq_true (by norm_num : ((259/4 : ℚ) < 100))]
    rfl
  have hzip : demoDs.rows.zip
      [some (Val.num 1), some (Val.num 2), some (Val.num 1), some (Val.num 100)] =
      [([some (Val.num 1), some (Val.num 10)], some (Val.num 1)),
       ([some (Val.num 2), some (Val.num 20)], some (Val.num 2)),
       ([some (Val.num 1), some (Val.num 10)], some (Val.num 1)),
       ([some (Val.num 100), some (Val.num 5)], some (Val.num 100))] := by decide
  simp [hzip, b1, b2, b100]

/-- Counterexample for C2: on the scenario dataset the 75th percentile of
column A under the rank-interpolation formula (and under pandas quantile) is
26.5, not the 2 the claim states: the virtual index is 0.75 * 3 = 2.25, so
the value is 2 + 0.25 * (100 - 2). -/
theorem c2_counterexample :
    reportQ3 (update_boxplot (some "A") (some demoDs)) = some (53/2) ∧
    reportQ3 (update_boxplot (some "A") (some demoDs)) ≠ some 2 := by
  rw [update_boxplot_demoDs]
  refine ⟨rfl, fun h => ?_⟩
  simp only [reportQ3, Option.some.injEq] at h
  norm_num at h

/-- C2 as amended: on the scenario dataset the numeric columns are A and B,
the duplicate report flags exactly the third row, and the outlier report on
column A has Q1 = 1 and Q3 = 26.5, whose IQR fence 64.75 flags the row with
value 100 as the only outlier. -/
theorem c2_amended_scenario :
    numericCols demoDs = ["A", "B"] ∧
    duplicateCount demoDs = 1 ∧
    duplicateRows demoDs = [[some (Val.num 1), some (Val.num 10)]] ∧
    update_boxplot (some "A") (some demoDs) = .ok (some
      { q1 := some 1, q3 := some (53/2), iqr := some (51/2),
        lower := some (-(149/4)), upper := some (259/4),
        outlierRows := [[some (Val.num 100), some (Val.num 5)]] }) :=
  ⟨by decide, by decide, by decide, update_boxplot_demoDs⟩

/-- C9: on a zero-row upload the cached-records path of app.py stores an
empty record list, the rebuilt dataframe loses every column, and the boxplots
branch of render_tab raises IndexError evaluating num_cols[0]; the duplicate,
missing-value and guarded boxplot operations stay well defined on the same
input. -/
theorem c9_empty_dataset_boxplots_crash :
    headerOnlyDs.rowCount = 0 ∧
    toRecords headerOnlyDs = [] ∧
    boxplots_tab (toRecords headerOnlyDs) = .error .indexError ∧
    duplicateCount (fromRecords (toRecords headerOnlyDs)) = 0 ∧
    missingReport (fromRecords (toRecords headerOnlyDs)) = [] ∧
    update_boxplot none (some (fromRecords (toRecords headerOnlyDs))) = .ok none :=
  ⟨rfl, rfl, rfl, rfl, rfl, rfl⟩

/-- Counterexample for C5: update_boxplot performs no column validation; on a
text column it propagates the pandas TypeError of quantile, and on an absent
label the KeyError of df[column], instead of returning a structured
InvalidColumn value. -/
theorem c5_counterexample :
    update_boxplot (some "name") (some textDs) = .error .typeError ∧
    update_boxplot (some "missing") (some textDs) = .error .keyError :=
  ⟨rfl, rfl⟩

/-- C5 as amended: for a column name outside the numeric set update_boxplot
raises (KeyError for an absent label, TypeError for a non-numeric column)
rather than signalling a structured InvalidColumn value, while for every
column in the numeric set it returns a report and no failure; the app2
dropdown only offers numeric columns, so the raising branches are not
reachable from the UI. -/
theorem c5_amended_column_validation (ds : Dataset) (col : String) :
    (ds.col? col = none →
      update_boxplot (some col) (some ds) = .error .keyError) ∧
    (∀ cells, ds.col? col = some cells → colIsNumeric cells = false →
      update_boxplot (some col) (some ds) = .error .typeError) ∧
    (∀ cells, ds.col? col = some cells → colIsNumeric cells = true →
      ∃ r, update_boxplot (some col) (some ds) = .ok (some r)) := by
  refine ⟨?_, ?_, ?_⟩
  · intro h
    simp [update_boxplot, h]
  · intro cells h hnum
    simp [update_boxplot, h, hnum]
  · intro cells h hnum
    simp only [update_boxplot, h, hnum, if_true]
    exact ⟨_, rfl⟩

/-- Witness for the amended C5: the numeric column X of the mixed dataset
yields a report. -/
theorem c5_amended_column_validation_witness :
    ∃ r, update_boxplot (some "X") (some mixedDs) = .ok (some r) :=
  (c5_amended_column_validation mixedDs "X").2.2
    [some (Val.num 1), none, some (Val.num 3), some (Val.num 4)]
    (by decide) (by decide)

/-- Counterexample for C4: the correlation branch of app1.py and app2.py has
no numeric-column guard; on a dataset with zero numeric columns it computes
df[num_cols].corr() and hands the resulting empty matrix to the heatmap
instead of signalling NoNumericColumns. -/
theorem c4_counterexample :
    numericCols textDs = [] ∧
    correlationTabNoGuard textDs = ([] : List (List ℝ)) := by
  have h : numericCols textDs = [] := by decide
  exact ⟨h, by simp [correlationTabNoGuard, corrMatrix, h]⟩

/-- C4 as amended: in app.py the correlation branch signals the
NoNumericColumns condition (the warning, modelled as none) and returns no
matrix when the numeric column set is empty; app1.py and app2.py omit the
guard and return the empty matrix built from the empty numeric set. -/
theorem c4_no_numeric_columns (ds : Dataset) (h : numericCols ds = []) :
    correlationTab ds = none ∧ correlationTabNoGuard ds = ([] : List (List ℝ)) := by
  constructor
  · simp [correlationTab, h]
  · simp [correlationTabNoGuard, corrMatrix, h]

/-- Witness for the amended C4 at the concrete text-only dataset. -/
theorem c4_no_numeric_columns_witness :
    correlationTab textDs = none ∧
    correlationTabNoGuard textDs = ([] : List (List ℝ)) :=
  c4_no_numeric_columns textDs (by decide)

theorem interpAt_eq_percentileAt (s : List ℚ) (p : ℚ)
    (hs : s ≠ []) (hp0 : 0 ≤ p) (hp1 : p ≤ 1) :
    interpAt s p = percentileAt s p := by
  have hn : 1 ≤ s.length := List.length_pos.mpr hs
  set m : ℕ := s.length - 1 with hm_def
  set h : ℚ := p * (m : ℚ) with hh_def
  have h0 : 0 ≤ h := mul_nonneg hp0 (Nat.cast_nonneg m)
  have hm : h ≤ (m : ℚ) := by
    calc p * (m : ℚ) ≤ 1 * (m : ℚ) :=
          mul_le_mul_of_nonneg_right hp1 (Nat.cast_nonneg m)
    _ = (m : ℚ) := one_mul _
  have hfl0 : 0 ≤ ⌊h⌋ := Int.floor_nonneg.mpr h0
  have hcast : ((⌊h⌋.toNat : ℕ) : ℚ) = ((⌊h⌋ : ℤ) : ℚ) := by
    exact_mod_cast congrArg (fun z : ℤ => (z : ℚ)) (Int.toNat_of_nonneg hfl0)
  by_cases hfrac : Int.fract h = 0
  · have hfe : (⌊h⌋ : ℚ) = h := by
      rw [Int.fract] at hfrac
      linarith
    have hg : h - ((⌊h⌋.toNat : ℕ) : ℚ) = 0 := by
      rw [hcast, hfe]
      ring
    simp only [interpAt, percentileAt, ← hm_def, ← hh_def, hg]
    ring
  · have hflt : (⌊h⌋ : ℚ) < h := by
      rcases lt_or_eq_of_le (Int.floor_le h) with h1 | h1
      · exact h1
      · exact absurd (by rw [Int.fract]; linarith) hfrac
    have hlt : h < (m : ℚ) := by
      rcases lt_or_eq_of_le hm with h1 | h1
      · exact h1
      · exact absurd (by rw [h1, Int.fract_natCast]) hfrac
    have hfloor_lt : ⌊h⌋ < (m : ℤ) := by
      rw [Int.floor_lt]
      exact_mod_cast hlt
    have htn : ((⌊h⌋.toNat : ℤ)) = ⌊h⌋ := Int.toNat_of_nonneg hfl0
    have hi_lt : ⌊h⌋.toNat < m := by omega
    have hceil : ⌈h⌉ = ⌊h⌋ + 1 := by
      have hub : ⌈h⌉ ≤ ⌊h⌋ + 1 := by
        rw [Int.ceil_le]
        push_cast
        exact (Int.lt_floor_add_one h).le
      have hlb : ⌊h⌋ + 1 ≤ ⌈h⌉ := by
        have hcc : (⌊h⌋ : ℚ) < (⌈h⌉ : ℚ) := lt_of_lt_of_le hflt (Int.le_ceil h)
        have : ⌊h⌋ < ⌈h⌉ := by exact_mod_cast hcc
        omega
      omega
    have hceil_toNat : ⌈h⌉.toNat = ⌊h⌋.toNat + 1 := by omega
    have hi1_lt : ⌊h⌋.toNat + 1 < s.length := by omega
    have hi_lt_len : ⌊h⌋.toNat < s.length := by omega
    simp only [interpAt, percentileAt, ← hm_def, ← hh_def, hceil_toNat,
      List.getD_eq_getElem?_getD, List.getElem?_eq_getElem hi_lt_len,
      List.getElem?_eq_getElem hi1_lt, Option.getD_some]

theorem sortedQ_ne_nil (l : List ℚ) (hl : l ≠ []) : sortedQ l ≠ [] := by
  intro he
  apply hl
  have := (List.perm_insertionSort (· ≤ ·) l).length_eq
  rw [sortedQ] at he
  rw [he] at this
  exact List.length_eq_zero.mp this.symm

theorem quantileLinear_eq_spec (l : List ℚ) (p : ℚ)
    (hl : l ≠ []) (hp0 : 0 ≤ p) (hp1 : p ≤ 1) :
    quantileLinear l p = specPercentile (sortedQ l) p := by
  rw [quantileLinear, if_neg hl, specPercentile, if_neg (sortedQ_ne_nil l hl)]
  exact congrArg some (interpAt_eq_percentileAt (sortedQ l) p (sortedQ_ne_nil l hl) hp0 hp1)

theorem cellComp_eq_specOutlier (lo hi : ℚ) (c : Cell) :
    (cellLt c (some lo) || cellGt c (some hi)) = specOutlier lo hi c := by
  cases c with
  | none => rfl
  | some v => cases v <;> rfl

theorem specOutlier_eq_true_iff (lo hi : ℚ) (c : Cell) :
    specOutlier lo hi c = true ↔
      ∃ v : ℚ, c = some (Val.num v) ∧ (v < lo ∨ hi < v) := by
  cases c with
  | none => simp [specOutlier]
  | some v =>
    cases v with
    | num q => simp [specOutlier]
    | str s => simp [specOutlier]

/-- C1: on a numeric column with at least one value, update_boxplot computes
Q1 and Q3 over the non-null values by the rank-interpolation percentile
formula of the spec (quantileLinear, shown equal to the bracketing-entries
formula specPercentile on the sorted values), sets IQR = Q3 - Q1 and the
fences Q1 - 1.5 IQR and Q3 + 1.5 IQR, and keeps exactly the rows whose cell
holds a value strictly below the lower fence or strictly above the upper
fence; null cells enter neither the quartiles (numsOf drops them) nor the
outlier rows (the final equivalence). -/
theorem c1_outlier_report (ds : Dataset) (col : String) (cells : List Cell)
    (hw : ds.Wellformed)
    (hcol : ds.col? col = some cells)
    (hnum : colIsNumeric cells = true)
    (hvals : numsOf cells ≠ []) :
    ∃ qa qb : ℚ,
      specPercentile (sortedQ (numsOf cells)) (1/4) = some qa ∧
      specPercentile (sortedQ (numsOf cells)) (3/4) = some qb ∧
      update_boxplot (some col) (some ds) = .ok (some
        { q1 := some qa, q3 := some qb, iqr := some (qb - qa),
          lower := some (qa - 3/2 * (qb - qa)), upper := some (qb + 3/2 * (qb - qa)),
          outlierRows := ((ds.rows.zip cells).filter fun rc =>
              specOutlier (qa - 3/2 * (qb - qa)) (qb + 3/2 * (qb - qa)) rc.2).map Prod.fst }) ∧
      (∀ c : Cell,
        specOutlier (qa - 3/2 * (qb - qa)) (qb + 3/2 * (qb - qa)) c = true ↔
        ∃ v : ℚ, c = some (Val.num v) ∧
          (v < qa - 3/2 * (qb - qa) ∨ qb + 3/2 * (qb - qa) < v)) := by
  obtain ⟨qa, hqa⟩ : ∃ q, quantileLinear (numsOf cells) (1/4) = some q := by
    rw [quantileLinear, if_neg hvals]
    exact ⟨_, rfl⟩
  obtain ⟨qb, hqb⟩ : ∃ q, quantileLinear (numsOf cells) (3/4) = some q := by
    rw [quantileLinear, if_neg hvals]
    exact ⟨_, rfl⟩
  refine ⟨qa, qb, ?_, ?_, ?_, fun c => specOutlier_eq_true_iff _ _ c⟩
  · rw [← quantileLinear_eq_spec (numsOf cells) (1/4) hvals (by norm_num) (by norm_num), hqa]
  · rw [← quantileLinear_eq_spec (numsOf cells) (3/4) hvals (by norm_num) (by norm_num), hqb]
  · simp only [update_boxplot, hcol, hnum, if_true, hqa, hqb]
    simp only [cellComp_eq_specOutlier]

/-- Witness for C1 on the mixed dataset: column X has values 1, 3, 4 and one
null, so Q1 = 2, Q3 = 3.5, and no row is outside the fences. -/
theorem c1_outlier_report_witness :
    ∃ qa qb : ℚ,
      specPercentile (sortedQ (numsOf
        [some (Val.num 1), none, some (Val.num 3), some (Val.num 4)])) (1/4) = some qa ∧
      specPercentile (sortedQ (numsOf
        [some (Val.num 1), none, some (Val.num 3), some (Val.num 4)])) (3/4) = some qb ∧
      update_boxplot (some "X") (some mixedDs) = .ok (some
        { q1 := some qa, q3 := some qb, iqr := some (qb - qa),
          lower := some (qa - 3/2 * (qb - qa)), upper := some (qb + 3/2 * (qb - qa)),
          outlierRows := ((mixedDs.rows.zip
              [some (Val.num 1), none, some (Val.num 3), some (Val.num 4)]).filter fun rc =>
              specOutlier (qa - 3/2 * (qb - qa)) (qb + 3/2 * (qb - qa)) rc.2).map Prod.fst }) ∧
      (∀ c : Cell,
        specOutlier (qa - 3/2 * (qb - qa)) (qb + 3/2 * (qb - qa)) c = true ↔
        ∃ v : ℚ, c = some (Val.num v) ∧
          (v < qa - 3/2 * (qb - qa) ∨ qb + 3/2 * (qb - qa) < v)) :=
  c1_outlier_report mixedDs "X"
    [some (Val.num 1), none, some (Val.num 3), some (Val.num 4)]
    (by decide) (by decide) rfl (by decide)

theorem map_fst_swap (l : List (ℚ × ℚ)) : (l.map Prod.swap).map Prod.fst = l.map Prod.snd := by
  rw [List.map_map]
  exact List.map_congr_left fun p _ => rfl

theorem map_snd_swap (l : List (ℚ × ℚ)) : (l.map Prod.swap).map Prod.snd = l.map Prod.fst := by
  rw [List.map_map]
  exact List.map_congr_left fun p _ => rfl

theorem meanFst_swap (l : List (ℚ × ℚ)) : meanFst (l.map Prod.swap) = meanSnd l := by
  rw [meanFst, meanSnd, map_fst_swap, List.length_map]

theorem meanSnd_swap (l : List (ℚ × ℚ)) : meanSnd (l.map Prod.swap) = meanFst l := by
  rw [meanSnd, meanFst, map_snd_swap, List.length_map]

theorem covQ_swap (l : List (ℚ × ℚ)) : covQ (l.map Prod.swap) = covQ l := by
  rw [covQ, covQ, List.map_map]
  refine congrArg List.sum (List.map_congr_left fun p _ => ?_)
  simp only [Function.comp, meanFst_swap, meanSnd_swap, Prod.fst_swap, Prod.snd_swap]
  ring

theorem varFst_swap (l : List (ℚ × ℚ)) : varFst (l.map Prod.swap) = varSnd l := by
  rw [varFst, varSnd, List.map_map]
  refine congrArg List.sum (List.map_congr_left fun p _ => ?_)
  simp only [Function.comp, meanFst_swap, Prod.fst_swap]

theorem varSnd_swap (l : List (ℚ × ℚ)) : varSnd (l.map Prod.swap) = varFst l := by
  rw [varSnd, varFst, List.map_map]
  refine congrArg List.sum (List.map_congr_left fun p _ => ?_)
  simp only [Function.comp, meanSnd_swap, Prod.snd_swap]

theorem pearsonR_swap (l : List (ℚ × ℚ)) : pearsonR (l.map Prod.swap) = pearsonR l := by
  rw [pearsonR, pearsonR, covQ_swap, varFst_swap, varSnd_swap,
    mul_comm (((varSnd l : ℚ) : ℝ))]

theorem commonPairs_cons (x y : Cell) (xs ys : List Cell) :
    commonPairs (x :: xs) (y :: ys) =
      match cellNum x, cellNum y with
      | some a, some b => (a, b) :: commonPairs xs ys
      | _, _ => commonPairs xs ys := rfl

theorem commonPairs_swap (a : List Cell) :
    ∀ b : List Cell, commonPairs b a = (commonPairs a b).map Prod.swap := by
  induction a with
  | nil => intro b; cases b <;> rfl
  | cons x xs ih =>
    intro b
    cases b with
    | nil => rfl
    | cons y ys =>
      rw [commonPairs_cons, commonPairs_cons]
      cases hy : cellNum y <;> cases hx : cellNum x <;>
        simp [hy, hx, ih ys, Prod.swap]

theorem commonPairs_self (a : List Cell) :
    commonPairs a a = (numsOf a).map fun q => (q, q) := by
  induction a with
  | nil => rfl
  | cons x xs ih => cases hx : cellNum x <;> simp [commonPairs, numsOf, hx, ih]

theorem pairedVals_symm (ds : Dataset) (i j : String) :
    pairedVals ds j i = (pairedVals ds i j).map Prod.swap := by
  rw [pairedVals, pairedVals]
  cases hi : ds.col? i with
  | none => cases hj : ds.col? j <;> rfl
  | some a =>
    cases hj : ds.col? j with
    | none => rfl
    | some b => exact commonPairs_swap a b

theorem pairedVals_self (ds : Dataset) (i : String) (cs : List Cell)
    (h : ds.col? i = some cs) :
    pairedVals ds i i = (numsOf cs).map fun q => (q, q) := by
  rw [pairedVals, h]
  exact commonPairs_self cs

theorem varFst_nonneg (l : List (ℚ × ℚ)) : 0 ≤ varFst l := by
  refine List.sum_nonneg fun x hx => ?_
  obtain ⟨p, _, rfl⟩ := List.mem_map.mp hx
  exact mul_self_nonneg _

theorem meanSnd_diag (vs : List ℚ) :
    meanSnd (vs.map fun q => (q, q)) = meanFst (vs.map fun q => (q, q)) := by
  rw [meanFst, meanSnd, List.map_map, List.map_map]
  rfl

theorem covQ_diag (vs : List ℚ) :
    covQ (vs.map fun q => (q, q)) = varFst (vs.map fun q => (q, q)) := by
  rw [covQ, varFst]
  refine congrArg List.sum (List.map_congr_left fun p hp => ?_)
  obtain ⟨q, _, rfl⟩ := List.mem_map.mp hp
  rw [meanSnd_diag]

theorem varSnd_diag (vs : List ℚ) :
    varSnd (vs.map fun q => (q, q)) = varFst (vs.map fun q => (q, q)) := by
  rw [varSnd, varFst]
  refine congrArg List.sum (List.map_congr_left fun p hp => ?_)
  obtain ⟨q, _, rfl⟩ := List.mem_map.mp hp
  rw [meanSnd_diag]

theorem pearsonR_diag (vs : List ℚ)
    (hv : varFst (vs.map fun q => (q, q)) ≠ 0) :
    pearsonR (vs.map fun q => (q, q)) = 1 := by
  rw [pearsonR, covQ_diag, varSnd_diag]
  have hV0 : (0 : ℚ) ≤ varFst (vs.map fun q => (q, q)) := varFst_nonneg _
  rw [Real.sqrt_mul_self (by exact_mod_cast hV0)]
  have hne : ((varFst (vs.map fun q => (q, q)) : ℚ) : ℝ) ≠ 0 := by exact_mod_cast hv
  field_simp

theorem corrEntry_symm (ds : Dataset) (i j : String) :
    corrEntry ds i j = corrEntry ds j i := by
  rw [corrEntry, corrEntry, pairedVals_symm ds i j, pearsonR_swap]

theorem col?_isSome_of_mem (ds : Dataset) (i : String) (h : i ∈ ds.colNames) :
    ∃ cs, ds.col? i = some cs := by
  obtain ⟨c, hc, rfl⟩ := List.mem_map.mp h
  have hs : (ds.cols.find? fun d => decide (d.1 = c.1)).isSome := by
    rw [List.find?_isSome]
    exact ⟨c, hc, by simp⟩
  obtain ⟨d, hd⟩ := Option.isSome_iff_exists.mp hs
  exact ⟨d.2, by rw [Dataset.col?, hd]; rfl⟩

theorem corrEntry_diag (ds : Dataset) (i : String) (cs : List Cell)
    (h : ds.col? i = some cs) (hv : colVar ds i ≠ 0) :
    corrEntry ds i i = 1 := by
  have hps := pairedVals_self ds i cs h
  rw [corrEntry, hps]
  apply pearsonR_diag
  rw [colVar, hps] at hv
  exact hv

theorem getD_map_of_lt {α β : Type} (f : α → β) (L : List α) (a : ℕ)
    (ha : a < L.length) (d : β) (e : α) :
    (L.map f).getD a d = f (L.getD a e) := by
  rw [List.getD_eq_getElem?_getD, List.getElem?_eq_getElem (by simpa using ha),
    List.getElem_map, Option.getD_some,
    List.getD_eq_getElem?_getD, List.getElem?_eq_getElem ha, Option.getD_some]

/-- C7: with a non-empty numeric set the correlation tab returns the matrix
(no warning); the matrix is square over the numeric column labels with entry
(a, b) the Pearson coefficient of the a-th and b-th numeric columns computed
over their pairwise non-null rows; the entries are symmetric in the two
columns; and a diagonal entry is exactly 1 whenever the column has non-zero
deviation sum of squares (with zero variance pandas yields NaN instead, which
the claim excludes). -/
theorem c7_correlation_matrix (ds : Dataset) (i j : String)
    (hi : i ∈ numericCols ds) (hj : j ∈ numericCols ds)
    (hne : numericCols ds ≠ []) :
    correlationTab ds = some (corrMatrix ds) ∧
    (corrMatrix ds).length = (numericCols ds).length ∧
    (∀ row ∈ corrMatrix ds, row.length = (numericCols ds).length) ∧
    (∀ a b : ℕ, a < (numericCols ds).length → b < (numericCols ds).length →
      ((corrMatrix ds).getD a []).getD b 0 =
        corrEntry ds ((numericCols ds).getD a "") ((numericCols ds).getD b "")) ∧
    corrEntry ds i j = pearsonR (pairedVals ds i j) ∧
    corrEntry ds i j = corrEntry ds j i ∧
    (colVar ds i ≠ 0 → corrEntry ds i i = 1) := by
  refine ⟨?_, ?_, ?_, ?_, rfl, corrEntry_symm ds i j, ?_⟩
  · rw [correlationTab, if_neg hne]
  · rw [corrMatrix, List.length_map]
  · intro row hrow
    obtain ⟨c, _, rfl⟩ := List.mem_map.mp hrow
    rw [List.length_map]
  · intro a b ha hb
    rw [corrMatrix, getD_map_of_lt _ _ a ha _ "", getD_map_of_lt _ _ b hb _ ""]
  · intro hv
    have hsub : i ∈ ds.colNames := by
      have hsl : List.Sublist (numericCols ds) ds.colNames :=
        (List.filter_sublist ds.cols).map Prod.fst
      exact hsl.subset hi
    obtain ⟨cs, hcs⟩ := col?_isSome_of_mem ds i hsub
    exact corrEntry_diag ds i cs hcs hv

/-- Column A of the scenario dataset has non-zero deviation sum of squares. -/
theorem demoDs_colVar_A : colVar demoDs "A" ≠ 0 := by
  have hpv : pairedVals demoDs "A" "A" = [(1, 1), (2, 2), (1, 1), (100, 100)] := by decide
  rw [colVar, hpv]
  simp [varFst, meanFst]
  norm_num


/-- Witness for C7 on the scenario dataset, including the evaluated diagonal
entry of column A. -/
theorem c7_correlation_matrix_witness :
    (correlationTab demoDs = some (corrMatrix demoDs) ∧
     (corrMatrix demoDs).length = (numericCols demoDs).length ∧
     (∀ row ∈ corrMatrix demoDs, row.length = (numericCols demoDs).length) ∧
     (∀ a b : ℕ, a < (numericCols demoDs).length → b < (numericCols demoDs).length →
       ((corrMatrix demoDs).getD a []).getD b 0 =
         corrEntry demoDs ((numericCols demoDs).getD a "") ((numericCols demoDs).getD b "")) ∧
     corrEntry demoDs "A" "B" = pearsonR (pairedVals demoDs "A" "B") ∧
     corrEntry demoDs "A" "B" = corrEntry demoDs "B" "A" ∧
     (colVar demoDs "A" ≠ 0 → corrEntry demoDs "A" "A" = 1)) ∧
    corrEntry demoDs "A" "A" = 1 :=
  ⟨c7_correlation_matrix demoDs "A" "B" (by decide) (by decide) (by decide),
   (c7_correlation_matrix demoDs "A" "A" (by decide) (by decide) (by decide)).2.2.2.2.2.2
     demoDs_colVar_A⟩

theorem addKeys_of_subset (acc : List String) (rec : List (String × Cell))
    (h : ∀ k ∈ rec.map Prod.fst, k ∈ acc) : addKeys acc rec = acc := by
  rw [addKeys, List.filter_eq_nil_iff.mpr, List.append_nil]
  intro k hk
  simp [h k hk]

theorem foldl_addKeys_absorb (recs : List (List (String × Cell))) :
    ∀ acc : List String,
      (∀ rec ∈ recs, ∀ k ∈ rec.map Prod.fst, k ∈ acc) →
      recs.foldl addKeys acc = acc := by
  induction recs with
  | nil => intro acc _; rfl
  | cons r rs ih =>
    intro acc h
    rw [List.foldl_cons, addKeys_of_subset acc r (h r (by simp))]
    exact ih acc fun rec hrec => h rec (by simp [hrec])

theorem recordKeys_const (recs : List (List (String × Cell))) (ks : List String)
    (hne : recs ≠ []) (h : ∀ rec ∈ recs, rec.map Prod.fst = ks) :
    recordKeys recs = ks := by
  cases recs with
  | nil => exact absurd rfl hne
  | cons r rs =>
    rw [recordKeys, List.foldl_cons]
    have hr : addKeys [] r = ks := by
      rw [addKeys, List.nil_append, h r (by simp), List.filter_eq_self.mpr]
      intro k hk
      simp
    rw [hr]
    exact foldl_addKeys_absorb rs ks fun rec hrec k hk => by
      rw [h rec (by simp [hrec])] at hk
      exact hk

theorem find?_map_keyed (cols : List (String × List Cell))
    (g : String × List Cell → Cell) (c : String × List Cell) :
    (cols.map Prod.fst).Nodup → c ∈ cols →
    (cols.map fun d => (d.1, g d)).find? (fun p => decide (p.1 = c.1)) =
      some (c.1, g c) := by
  induction cols with
  | nil => intro _ hc; cases hc
  | cons d tl ih =>
    intro hn hc
    simp only [List.map_cons, List.nodup_cons] at hn
    rw [List.map_cons, List.find?_cons]
    by_cases hdc : d.1 = c.1
    · rcases List.mem_cons.mp hc with rfl | hc2
      · simp
      · exact absurd (hdc ▸ List.mem_map_of_mem Prod.fst hc2) hn.1
    · rcases List.mem_cons.mp hc with rfl | hc2
      · exact absurd rfl hdc
      · simp only [decide_eq_false hdc]
        exact ih hn.2 hc2

/-- C10 as amended: for every wellformed dataframe with at least one row, the
cached path of app.py (serialize with to_dict(records), rebuild with
pd.DataFrame) reproduces the dataframe exactly, so both variants compute the
same analyses there; the zero-row case is the exception recorded in the
counterexample. -/
theorem c10_cached_roundtrip (ds : Dataset) (hw : ds.Wellformed)
    (hr : 0 < ds.rowCount) : fromRecords (toRecords ds) = ds := by
  have hkeys : ∀ rec ∈ toRecords ds, rec.map Prod.fst = ds.cols.map Prod.fst := by
    intro rec hrec
    obtain ⟨r, _, rfl⟩ := List.mem_map.mp hrec
    rw [List.map_map]
    rfl
  have hne : toRecords ds ≠ [] := by
    intro he
    have : (toRecords ds).length = ds.rowCount := by
      rw [toRecords, List.length_map, List.length_range]
    rw [he] at this
    simp at this
    omega
  have hrk : recordKeys (toRecords ds) = ds.cols.map Prod.fst :=
    recordKeys_const (toRecords ds) (ds.cols.map Prod.fst) hne hkeys
  have hcol : ∀ c ∈ ds.cols,
      ((toRecords ds).map fun rec => lookupCell rec c.1) = c.2 := by
    intro c hc
    rw [toRecords, List.map_map]
    have hlu : ∀ r : ℕ,
        lookupCell (ds.cols.map fun d => (d.1, d.2.getD r none)) c.1 =
          c.2.getD r none := by
      intro r
      rw [lookupCell, find?_map_keyed ds.cols (fun d => d.2.getD r none) c hw.1 hc]
      rfl
    have hlen : c.2.length = ds.rowCount := hw.2 c hc
    refine List.ext_get ?_ ?_
    · simp [hlen]
    · intro n h1 h2
      simp only [List.get_eq_getElem, List.getElem_map, List.getElem_range,
        Function.comp]
      rw [hlu]
      rw [List.getD_eq_getElem?_getD, List.getElem?_eq_getElem h2, Option.getD_some]
  rw [fromRecords, hrk]
  cases ds with
  | mk cols =>
    simp only
    congr 1
    rw [List.map_map]
    calc cols.map ((fun k => (k, (toRecords ⟨cols⟩).map fun rec => lookupCell rec k)) ∘ Prod.fst)
        = cols.map id := List.map_congr_left fun c hcmem => by
          simp only [Function.comp, id]
          have := hcol c hcmem
          rw [this]
      _ = cols := List.map_id cols

/-- Counterexample for C10: a parsed CSV with one column and zero rows
serializes to an empty record list, and pd.DataFrame([]) has no columns at
all, so the cached path of app.py loses the column names the re-parse path
keeps. -/
theorem c10_counterexample :
    fromRecords (toRecords headerOnlyDs) ≠ headerOnlyDs ∧
    (fromRecords (toRecords headerOnlyDs)).colNames = [] ∧
    headerOnlyDs.colNames = ["A"] := by
  refine ⟨?_, rfl, rfl⟩
  decide

/-- Witness for the amended C10 on the scenario dataset. -/
theorem c10_cached_roundtrip_witness :
    fromRecords (toRecords demoDs) = demoDs :=
  c10_cached_roundtrip demoDs (by decide) (by decide)

end EDA
